import Mathlib

/-!
Shallow embedding of the authentication and account-security subsystem of the
user-management API (Go), together with proofs about its login flow, lockout
policy, token issuance/validation, revocation registry and rate limiter.

Conventions: wall-clock times are natural numbers (`0` is the zero time) and
durations are stated in the unit of the code they embed — int64 nanoseconds
for the exponential lockout delay and the login/lockout state it feeds
(Go `time.Duration` arithmetic, including its two's-complement wrap),
milliseconds for the table-based lockout delay and the token lifetimes;
bcrypt verification is modelled as comparison against an injective tagging
of the password; a JWT on the wire is modelled as an inductive value
recording its payload and signing key; random jitter is passed in as an
explicit argument.
-/

namespace UserMgmt

/-- Embeds `database.UserStatus` (internal/database/models.go). -/
inductive UserStatus where
  | active
  | locked
  | inactive
  | deleted
deriving DecidableEq, Repr

/-- Embeds `database.User` (internal/database/models.go), restricted to the fields the
authentication core reads.  `password` holds the stored bcrypt hash;
`lockedUntil = 0` models the unset zero time. -/
structure User where
  id : Nat
  username : String
  password : String
  status : UserStatus
  lockedUntil : Nat
  lockReason : String
deriving DecidableEq, Repr

/-- bcrypt hashing (`User.HashPassword`) modelled as an injective tagging
function, so that hash verification succeeds exactly when the supplied
password is the one whose hash is stored. -/
def hashPassword (password : String) : String := "bcrypt$" ++ password

/-- Embeds `User.CheckPasswordHash` (internal/database/models.go):
`bcrypt.CompareHashAndPassword` on the stored hash. -/
def User.checkPasswordHash (u : User) (password : String) : Bool :=
  u.password == hashPassword password

/-- Embeds `database.LoginAttempt` (internal/database/models.go), restricted to the
fields the ledger reads and writes.  `lastAttempt = 0` models the zero time. -/
structure LoginAttempt where
  attempts : Nat
  success : Bool
  lastAttempt : Nat
deriving DecidableEq, Repr

/-- The distinct error values produced along the login flow, one constructor
per `errors.New` / `apperrors` value in the source. -/
inductive AuthError where
  /-- Embeds `repository.ErrUserNotFound` ("user not found") -/
  | userNotFound
  /-- Embeds `CheckUserStatus`, locked branch ("account locked until ...") -/
  | accountLocked (lockedUntil : Nat) (reason : String)
  /-- Embeds `CheckUserStatus`, inactive/deleted branch ("account is not active") -/
  | accountInactive
  /-- password mismatch ("invalid credentials") -/
  | invalidCredentials
  /-- Embeds `checkLoginAttempts` ("too many login attempts. Account locked") -/
  | tooManyAttempts
deriving DecidableEq, Repr

/-- The persistent state the login flow touches: the `users` table and the
`login_attempts` table, the latter keyed by (username, ip address). -/
structure AuthState where
  users : List User
  attempts : List ((String × String) × LoginAttempt)
deriving DecidableEq, Repr

/-- Embeds `UserRepositoryImpl.FindUserByUsername` (internal/repository/user_repository.go):
the first row matching the username, `ErrUserNotFound` when there is none. -/
def findUserByUsername (users : List User) (username : String) :
    Except AuthError User :=
  match users.find? (fun u => u.username == username) with
  | some u => .ok u
  | none => .error .userNotFound

/-- The row lookup backing the login-attempt ledger
(`r.db.Where(...).First`): `none` models `gorm.ErrRecordNotFound`. -/
def findAttempt (st : AuthState) (username ip : String) : Option LoginAttempt :=
  (st.attempts.find? (fun p => p.1 == (username, ip))).map (fun p => p.2)

/-- Embeds `LoginAttemptRepositoryImpl.GetLoginAttempts`
(internal/repository/login_attempt_repository.go): a missing row
(`gorm.ErrRecordNotFound`) yields count 0, the zero time and no error. -/
def getLoginAttempts (st : AuthState) (username ip : String) :
    Except AuthError (Nat × Nat) :=
  match findAttempt st username ip with
  | none => .ok (0, 0)
  | some a => .ok (a.attempts, a.lastAttempt)

/-- Embeds `LoginAttemptRepositoryImpl.IncrementLoginAttempts`: creates the row with
count 1 when missing, otherwise applies `attempts = attempts + 1` and updates
outcome and last-attempt time on the matching row. -/
def incrementLoginAttempts (st : AuthState) (username ip : String)
    (success : Bool) (now : Nat) : AuthState :=
  match findAttempt st username ip with
  | none =>
      { st with attempts := ((username, ip), ⟨1, success, now⟩) :: st.attempts }
  | some _ =>
      { st with attempts := st.attempts.map (fun p =>
          if p.1 = (username, ip) then (p.1, ⟨p.2.attempts + 1, success, now⟩)
          else p) }

/-- Embeds `LoginAttemptRepositoryImpl.ResetLoginAttempts`: a missing row is a no-op;
otherwise the counter is zeroed, the outcome set to false and the
last-attempt time set to nil. -/
def resetLoginAttempts (st : AuthState) (username ip : String) : AuthState :=
  match findAttempt st username ip with
  | none => st
  | some _ =>
      { st with attempts := st.attempts.map (fun p =>
          if p.1 = (username, ip) then (p.1, ⟨0, false, 0⟩) else p) }

/-- Embeds `UserRepositoryImpl.LockUser`: sets status locked, the lock reason
and `locked_until = time.Now().Add(duration)` on the row with the given id.
The duration is a signed Go `time.Duration`; a negative duration yields a
time in the past, which the Nat time axis represents clamped at the epoch
(time 0, at or before every model time). -/
def lockUser (st : AuthState) (userID : Nat) (reason : String)
    (duration : Int) (now : Nat) : AuthState :=
  { st with users := st.users.map (fun u =>
      if u.id = userID then
        { u with status := .locked, lockReason := reason,
                 lockedUntil := ((now : Int) + duration).toNat }
      else u) }

/-- Embeds `MAX_LOGIN_ATTEMPTS` (pkg/authentication/auth_manager.go). -/
def MAX_LOGIN_ATTEMPTS : Nat := 5

/-- Embeds `AuthenticationManager.CheckUserStatus`
(pkg/authentication/auth_manager.go): locked with `locked_until` still in the
future reports the lock; inactive and deleted report inactivity; everything
else — active, or locked with `locked_until` elapsed — passes. -/
def checkUserStatus (u : User) (now : Nat) : Option AuthError :=
  match u.status with
  | .locked =>
      if now < u.lockedUntil then
        some (.accountLocked u.lockedUntil u.lockReason)
      else none
  | .inactive => some .accountInactive
  | .deleted => some .accountInactive
  | .active => none

/-- Embeds Go two's-complement int64 arithmetic: an integer is reduced
modulo 2^64 into the range [-2^63, 2^63).  Signed-integer overflow in Go
wraps this way. -/
def wrapInt64 (n : Int) : Int :=
  let m := n % (2 ^ 64 : Int)
  if m < 2 ^ 63 then m else m - 2 ^ 64

/-- Embeds `AuthenticationManager.calculateLockDelay`
(pkg/authentication/auth_manager.go), in int64 nanoseconds exactly as Go
`time.Duration` arithmetic: `baseDelay * time.Duration(math.Pow(2,
attempts-1))` is an int64 product that wraps two's complement, so the delay
goes negative from attempts = 35 on (1s * 2^34 ns overflows int64); the
jitter is `rand.Intn(1000)` milliseconds, passed in as `jitter` and added
before the cap; the one-hour cap applies only when the (possibly negative)
sum exceeds it.  `time.Duration(math.Pow(2, float64(attempts-1)))` is exact
for 1 ≤ attempts ≤ 63 and truncates 0.5 to 0 at attempts = 0; from
attempts = 64 on the float-to-int64 conversion is implementation-specific in
Go, and no theorem relies on the value of this function there. -/
def calculateLockDelay (attempts : Nat) (jitter : Nat) : Int :=
  let baseDelay : Int := 1000000000
  let maxDelay : Int := 3600000000000
  let pow2 : Int := if attempts = 0 then 0 else 2 ^ (attempts - 1)
  let delay := wrapInt64 (baseDelay * pow2)
  let delay2 := wrapInt64 (delay + jitter * 1000000)
  if delay2 > maxDelay then maxDelay else delay2

/-- The delay-step table of `AuthenticationManagerImpl.CalculateLockDelay`
(internal/repository/user_repository.go), in milliseconds. -/
def delaySteps : List Nat :=
  [1000, 2000, 4000, 8000, 16000, 32000, 60000, 120000, 240000, 3600000]

/-- Embeds `AuthenticationManagerImpl.CalculateLockDelay`
(internal/repository/user_repository.go): attempts below 1 are clamped to 1,
the raw delay is read from the step table (one hour beyond it), jitter is
sampled from `[0, rawDelay/10)` ms (passed in as `jitter`) and the final
result is capped at one hour. -/
def CalculateLockDelay (attempts : Nat) (jitter : Nat) : Nat :=
  let maxDelay := 3600000
  let a := if attempts < 1 then 1 else attempts
  let rawDelay := if a - 1 < delaySteps.length then delaySteps.getD (a - 1) 0
                  else maxDelay
  let delay := rawDelay + jitter
  if delay > maxDelay then maxDelay else delay

/-- Embeds `AuthenticationManager.checkLoginAttempts`
(pkg/authentication/auth_manager.go) — the lockout decision: a count of at
least `MAX_LOGIN_ATTEMPTS` locks the account for the computed delay with
reason "Exceeded maximum login attempts" and reports the lock; a smaller
count passes. -/
def checkLoginAttempts (st : AuthState) (username : String) (userID : Nat)
    (ip : String) (now jitter : Nat) : Option AuthError × AuthState :=
  match getLoginAttempts st username ip with
  | .error e => (some e, st)
  | .ok (attempts, _) =>
      if attempts ≥ MAX_LOGIN_ATTEMPTS then
        let lockDuration := calculateLockDelay attempts jitter
        let st1 := lockUser st userID "Exceeded maximum login attempts"
          lockDuration now
        (some .tooManyAttempts, st1)
      else (none, st)

/-- Embeds `AuthenticationManager.recordFailedLoginAttempt`: the possible-delay
computation is only logged; the observable effect is the failed-attempt
increment. -/
def recordFailedLoginAttempt (st : AuthState) (username ip : String)
    (now : Nat) : AuthState :=
  incrementLoginAttempts st username ip false now

/-- Embeds `AuthenticationManager.ValidateUserAuthentication`
(pkg/authentication/auth_manager.go) — the login orchestration: account
lookup, status check, password check (a mismatch records a failed attempt and
rejects), lockout decision, attempt reset. -/
def validateUserAuthentication (st : AuthState) (username password ip : String)
    (now jitter : Nat) : Except AuthError User × AuthState :=
  match findUserByUsername st.users username with
  | .error e => (.error e, st)
  | .ok user =>
      match checkUserStatus user now with
      | some e => (.error e, st)
      | none =>
          if !(user.checkPasswordHash password) then
            (.error .invalidCredentials,
             recordFailedLoginAttempt st username ip now)
          else
            match checkLoginAttempts st username user.id ip now jitter with
            | (some e, st1) => (.error e, st1)
            | (none, st1) => (.ok user, resetLoginAttempts st1 username ip)

/-- Embeds `token.Claims` (pkg/token/token.go), restricted to the fields the
validator inspects.  `tokenType` is the Go `TokenType` string ("access" or
"refresh"); `tokenID` is the random UUID `jti`. -/
structure Claims where
  userID : Nat
  username : String
  tokenType : String
  tokenID : String
  expiresAt : Nat
deriving DecidableEq, Repr

/-- A JWT on the wire: either not a well-formed signed token, or a payload
signed (HMAC-SHA256, modelled as recording the signing key) with some
secret. -/
inductive SignedToken where
  | malformed (raw : String)
  | signed (claims : Claims) (key : String)
deriving DecidableEq, Repr

/-- The failure modes of the library JWT parse. -/
inductive JwtError where
  | malformedToken
  | signatureInvalid
  | expired
deriving DecidableEq, Repr

/-- Modelled from the spec: `jwt.ParseWithClaims` of the external golang-jwt
library (a dependency, not under the repository source) — it "decodes/verifies
signature, then expiry": a malformed token, a signature made with a different
key, and an elapsed `exp` each abort the parse with an error. -/
def jwtParseWithClaims (tok : SignedToken) (key : String) (now : Nat) :
    Except JwtError Claims :=
  match tok with
  | .malformed _ => .error .malformedToken
  | .signed claims sigKey =>
      if sigKey ≠ key then .error .signatureInvalid
      else if claims.expiresAt ≤ now then .error .expired
      else .ok claims

/-- The `apperrors` error codes the token manager emits
(pkg/errors/apperrors/error_codes.go). -/
inductive ErrorCode where
  | tokenBlacklisted
  | tokenInvalidType
  | tokenInvalidClaim
  | parseError
  | tokenSigningError
deriving DecidableEq, Repr

/-- Embeds `apperrors.TokenError` — the code and message of `NewTokenError`
(pkg/errors/apperrors/token.go). -/
structure TokenError where
  code : ErrorCode
  message : String
deriving DecidableEq, Repr

/-- Embeds `token.TokenManagerImpl` (pkg/token/token.go): the two per-kind secrets
and the blacklist, the latter keyed by the token value as in the Go map. -/
structure TokenManagerImpl where
  secretKey : String
  refreshSecretKey : String
  blacklist : List (SignedToken × Nat)
deriving DecidableEq, Repr

/-- Embeds `TokenBlacklist.AddToken` (pkg/token/token.go): Go map assignment, i.e.
upsert of the expiration recorded for the token. -/
def addToken {α : Type} [DecidableEq α] (tokens : List (α × Nat)) (tok : α)
    (expiration : Nat) : List (α × Nat) :=
  (tok, expiration) :: tokens.filter (fun p => !(decide (p.1 = tok)))

/-- Go map lookup on the blacklist. -/
def lookupToken {α : Type} [DecidableEq α] (tokens : List (α × Nat)) (tok : α) :
    Option Nat :=
  (tokens.find? (fun p => decide (p.1 = tok))).map (fun p => p.2)

/-- Embeds `TokenBlacklist.IsBlacklisted` (pkg/token/token.go): the token is present
and `now` is strictly before the recorded expiration. -/
def isBlacklisted {α : Type} [DecidableEq α] (tokens : List (α × Nat))
    (tok : α) (now : Nat) : Bool :=
  match lookupToken tokens tok with
  | none => false
  | some expiration => decide (now < expiration)

/-- Embeds `TokenBlacklist.Cleanup` (pkg/token/token.go): deletes exactly the entries
whose recorded expiry has passed (`now.After(expiresAt)`).  The
services layer `IsBlacklisted` (internal/services/auth_service.go) performs
the same deletion lazily during its lookup. -/
def cleanupBlacklist {α : Type} [DecidableEq α] (tokens : List (α × Nat))
    (now : Nat) : List (α × Nat) :=
  tokens.filter (fun p => !(decide (p.2 < now)))

/-- Embeds `TokenManagerImpl.GenerateToken` (pkg/token/token.go): 15-minute access
tokens signed with `secretKey`, 7-day refresh tokens signed with
`refreshSecretKey`; any other kind is rejected.  `jti` stands in for the
freshly generated UUID. -/
def generateToken (tm : TokenManagerImpl) (userID : Nat) (username : String)
    (tokenType : String) (now : Nat) (jti : String) :
    Except TokenError SignedToken :=
  if tokenType = "access" then
    .ok (.signed ⟨userID, username, "access", jti, now + 15 * 60000⟩
      tm.secretKey)
  else if tokenType = "refresh" then
    .ok (.signed ⟨userID, username, "refresh", jti, now + 7 * 24 * 3600000⟩
      tm.refreshSecretKey)
  else
    .error ⟨.tokenInvalidType, "Invalid token type"⟩

/-- Embeds `TokenManagerImpl.ValidateToken` (pkg/token/token.go): blacklist check
first, then per-kind secret selection, then the library parse (signature and
expiry), then the kind check.  Every parse failure is wrapped as the single
`ErrCodeParseError` token error. -/
def validateToken (tm : TokenManagerImpl) (tok : SignedToken)
    (expectedTokenType : String) (now : Nat) : Except TokenError Claims :=
  if isBlacklisted tm.blacklist tok now then
    .error ⟨.tokenBlacklisted, "Token is blacklisted"⟩
  else
    let secretKey? : Option String :=
      if expectedTokenType = "access" then some tm.secretKey
      else if expectedTokenType = "refresh" then some tm.refreshSecretKey
      else none
    match secretKey? with
    | none => .error ⟨.tokenInvalidType, "Invalid token type"⟩
    | some secretKey =>
        match jwtParseWithClaims tok secretKey now with
        | .error _ => .error ⟨.parseError, "Token parsing error"⟩
        | .ok claims =>
            if claims.tokenType ≠ expectedTokenType then
              .error ⟨.tokenInvalidType, "Token type does not match expected type"⟩
            else .ok claims

/-- One revocation-registry operation, stamped with the wall-clock time it
runs at: a revocation (`AddToken`) or a sweep (`Cleanup`; the services layer
lookup that lazily deletes expired entries mutates the map identically). -/
inductive BlOp where
  | add (tok : String) (e : Nat) (t : Nat)
  | cleanup (t : Nat)
deriving DecidableEq, Repr

/-- The time stamp of a registry operation. -/
def BlOp.time : BlOp → Nat
  | .add _ _ t => t
  | .cleanup t => t

/-- Whether the operation is a revocation of the given token. -/
def BlOp.addsTok (tok : String) : BlOp → Bool
  | .add tok1 _ _ => tok1 == tok
  | .cleanup _ => false

/-- Interpretation of one registry operation on the blacklist map. -/
def blApply (m : List (String × Nat)) : BlOp → List (String × Nat)
  | .add tok e _ => addToken m tok e
  | .cleanup t => cleanupBlacklist m t

/-- Run a sequence of registry operations. -/
def blRun (m : List (String × Nat)) (ops : List BlOp) : List (String × Nat) :=
  ops.foldl blApply m

/-- Modelled from the spec: the token bucket of the external juju/ratelimit
library (a dependency, not under the repository source).  Per the spec a
bucket holds "capacity, refill rate, available credits, last refill time";
credits refill at one per `fillInterval` and are capped at `capacity`. -/
structure Bucket where
  capacity : Nat
  fillInterval : Nat
  lastTick : Nat
  avail : Nat
deriving DecidableEq, Repr

/-- Modelled from the spec: `ratelimit.NewBucket(fillInterval, capacity)` —
a fresh bucket starts with its full capacity of credits. -/
def newBucket (now fillInterval capacity : Nat) : Bucket :=
  ⟨capacity, fillInterval, now, capacity⟩

/-- Modelled from the spec: credit refill — each whole refill interval elapsed
since the last refill adds one credit, capped at capacity. -/
def Bucket.adjust (b : Bucket) (now : Nat) : Bucket :=
  let ticks := (now - b.lastTick) / b.fillInterval
  { b with avail := min b.capacity (b.avail + ticks),
           lastTick := b.lastTick + ticks * b.fillInterval }

/-- Modelled from the spec: `TakeAvailable(1)` — take one credit if any is
available, returning the number of credits actually taken (1 or 0). -/
def Bucket.takeAvailable (b : Bucket) (now : Nat) : Nat × Bucket :=
  let b1 := b.adjust now
  if 1 ≤ b1.avail then (1, { b1 with avail := b1.avail - 1 }) else (0, b1)

/-- Embeds `middleware.IPRateLimiter` (internal/middleware/rate_limit_middleware.go):
the per-IP bucket registry with its configured burst capacity and refill
duration. -/
structure IPRateLimiter where
  limiters : List (String × Bucket)
  globalBurst : Nat
  duration : Nat
deriving DecidableEq, Repr

/-- Embeds `IPRateLimiter.getIPLimiter`: returns the existing bucket for the key, or
lazily creates one with the configured refill duration and burst capacity. -/
def getIPLimiter (l : IPRateLimiter) (ip : String) (now : Nat) :
    Bucket × IPRateLimiter :=
  match (l.limiters.find? (fun p => p.1 == ip)).map (fun p => p.2) with
  | some b => (b, l)
  | none =>
      let b := newBucket now l.duration l.globalBurst
      (b, { l with limiters := (ip, b) :: l.limiters })

/-- A sequence of `TakeAvailable(1)` calls at the given times, collecting the
results. -/
def takeAll (b : Bucket) : List Nat → List Nat × Bucket
  | [] => ([], b)
  | t :: ts =>
      let rb := b.takeAvailable t
      let rs := takeAll rb.2 ts
      (rb.1 :: rs.1, rs.2)

/-- The attempt count currently stored for a key (0 when no row exists). -/
def attemptCount (st : AuthState) (username ip : String) : Nat :=
  match findAttempt st username ip with
  | none => 0
  | some a => a.attempts

/-- Embeds `n` consecutive failed `RecordAttempt` calls for the key at times
1, ..., n. -/
def recordFails (st : AuthState) (username ip : String) : Nat → AuthState
  | 0 => st
  | n + 1 =>
      incrementLoginAttempts (recordFails st username ip n) username ip false
        (n + 1)

/-- A concrete active account for the end-to-end runs. -/
def alice : User :=
  ⟨1, "alice", hashPassword "correct-horse", .active, 0, ""⟩

/-- Initial state: the account of alice and an empty login-attempt ledger. -/
def st0 : AuthState := ⟨[alice], []⟩

/-- A state in which alice already has 5 recorded failed attempts from
origin "1.2.3.4". -/
def stA : AuthState := ⟨[alice], [(("alice", "1.2.3.4"), ⟨5, false, 5⟩)]⟩

/-- One wrong-password login call for alice from origin "1.2.3.4" at time
`t` (zero jitter). -/
def wrongLogin (st : AuthState) (t : Nat) : Except AuthError User × AuthState :=
  validateUserAuthentication st "alice" "wrong-pw" "1.2.3.4" t 0

/-- The state after `n` consecutive wrong-password login calls at times
1, ..., n. -/
def afterWrong : Nat → AuthState
  | 0 => st0
  | n + 1 => (wrongLogin (afterWrong n) (n + 1)).2

/-- A concrete token manager with distinct per-kind secrets and an empty
blacklist. -/
def tm0 : TokenManagerImpl := ⟨"access-secret", "refresh-secret", []⟩

/-- A well-formed access token signed with the access secret of tm0 that expires
at time 5. -/
def expiredTok : SignedToken :=
  .signed ⟨1, "alice", "access", "jti-0", 5⟩ "access-secret"

/-- A string that is not a well-formed JWT. -/
def malformedTok : SignedToken := .malformed "garbage"

/-- The access token `generateToken tm0 1 "alice" "access" 100 "jti-1"`
produces. -/
def accessTok : SignedToken :=
  .signed ⟨1, "alice", "access", "jti-1", 100 + 15 * 60000⟩ "access-secret"

/-- A concrete limiter registry: burst 2, refill duration 10, no buckets
yet. -/
def l0 : IPRateLimiter := ⟨[], 2, 10⟩

/-- The step function of the spec lockout-delay description:
1s, 2s, 4s, 8s, 16s, 32s, 1m, 2m, 4m for attempts 1–9 and 1h from attempt 10
onward, in milliseconds. -/
def stepTable : Nat → Nat
  | 1 => 1000
  | 2 => 2000
  | 3 => 4000
  | 4 => 8000
  | 5 => 16000
  | 6 => 32000
  | 7 => 60000
  | 8 => 120000
  | 9 => 240000
  | _ => 3600000

theorem stepTable_ge10 {n : Nat} (h : 10 ≤ n) : stepTable n = 3600000 := by
  obtain ⟨m, rfl⟩ : ∃ m, n = m + 10 := ⟨n - 10, by omega⟩
  rfl

/-- For attempts from 1 on, the table-based delay is the step value plus the
jitter, capped at one hour. -/
theorem CalculateLockDelay_eq (n j : Nat) (h : 1 ≤ n) :
    CalculateLockDelay n j =
      if stepTable n + j > 3600000 then 3600000 else stepTable n + j := by
  match n with
  | 0 => exact absurd h (by omega)
  | 1 | 2 | 3 | 4 | 5 | 6 | 7 | 8 | 9 | 10 => rfl
  | m + 11 => rfl

/-- Claim C3: the status guard reports a lock exactly while `locked_until` is in
the future, reports inactivity for inactive and deleted accounts, and passes
active accounts as well as locked accounts whose `locked_until` has elapsed
(even though the persisted status field still reads locked). -/
theorem checkUserStatus_cases (u : User) (now : Nat) :
    (u.status = .locked → now < u.lockedUntil →
      checkUserStatus u now = some (.accountLocked u.lockedUntil u.lockReason)) ∧
    ((u.status = .inactive ∨ u.status = .deleted) →
      checkUserStatus u now = some .accountInactive) ∧
    (u.status = .active → checkUserStatus u now = none) ∧
    (u.status = .locked → u.lockedUntil ≤ now →
      checkUserStatus u now = none) := by
  refine ⟨?_, ?_, ?_, ?_⟩
  · intro h1 h2
    simp [checkUserStatus, h1, h2]
  · rintro (h1 | h1) <;> simp [checkUserStatus, h1]
  · intro h1
    simp [checkUserStatus, h1]
  · intro h1 h2
    simp [checkUserStatus, h1, Nat.not_lt.mpr h2]

/-- Witness for C3 at concrete accounts. -/
theorem checkUserStatus_cases_witness :
    (User.mk 1 "alice" (hashPassword "pw") .locked 10 "r").status = .locked ∧
    (5 : Nat) < 10 ∧ (10 : Nat) ≤ 12 ∧
    checkUserStatus (User.mk 1 "alice" (hashPassword "pw") .locked 10 "r") 5 =
      some (.accountLocked 10 "r") ∧
    checkUserStatus (User.mk 1 "alice" (hashPassword "pw") .locked 10 "r") 12 =
      none ∧
    checkUserStatus (User.mk 2 "bob" (hashPassword "pw") .inactive 0 "") 5 =
      some .accountInactive ∧
    checkUserStatus (User.mk 3 "eve" (hashPassword "pw") .active 0 "") 5 =
      none :=
  ⟨rfl, by decide, by decide,
    (checkUserStatus_cases _ 5).1 rfl (by decide),
    (checkUserStatus_cases _ 12).2.2.2 rfl (by decide),
    (checkUserStatus_cases _ 5).2.1 (Or.inl rfl),
    (checkUserStatus_cases _ 5).2.2.1 rfl⟩

/-- Claim C10: with no stored record for the key, `GetLoginAttempts` returns
count 0, the zero time, and no error. -/
theorem getLoginAttempts_missing (st : AuthState) (username ip : String)
    (h : findAttempt st username ip = none) :
    getLoginAttempts st username ip = .ok (0, 0) := by
  simp [getLoginAttempts, h]

/-- Witness for C10 on the empty ledger. -/
theorem getLoginAttempts_missing_witness :
    findAttempt ⟨[], []⟩ "alice" "1.2.3.4" = none ∧
      getLoginAttempts ⟨[], []⟩ "alice" "1.2.3.4" = .ok (0, 0) :=
  ⟨rfl, getLoginAttempts_missing ⟨[], []⟩ "alice" "1.2.3.4" rfl⟩

/-- Claim C2: for every attempt count `n ≥ 1` and jitters below 10% of the
respective step, the table-based lockout delay is non-decreasing from `n` to
`n + 1`, equal to one hour for every `n ≥ 10`, and always within
`[step(n), step(n) * 1.1]`. -/
theorem CalculateLockDelay_spec (n j j1 : Nat) (hn : 1 ≤ n)
    (hj : j < stepTable n / 10) (hj1 : j1 < stepTable (n + 1) / 10) :
    CalculateLockDelay n j ≤ CalculateLockDelay (n + 1) j1 ∧
    (10 ≤ n → CalculateLockDelay n j = 3600000) ∧
    stepTable n ≤ CalculateLockDelay n j ∧
    CalculateLockDelay n j ≤ stepTable n * 11 / 10 := by
  have e1 := CalculateLockDelay_eq n j hn
  have e2 := CalculateLockDelay_eq (n + 1) j1 (by omega)
  rcases Nat.lt_or_ge n 10 with h10 | h10
  · interval_cases n <;>
      simp only [stepTable] at e1 e2 hj hj1 ⊢ <;>
      rw [e1, e2] <;> split_ifs <;> omega
  · rw [stepTable_ge10 h10] at e1 hj ⊢
    rw [stepTable_ge10 (by omega : 10 ≤ n + 1)] at e2 hj1
    rw [e1, e2]
    split_ifs <;> omega

theorem find?_filter_of_imp {α : Type} (l : List α) (p q : α → Bool)
    (h : ∀ a, p a = true → q a = true) :
    (l.filter q).find? p = l.find? p := by
  induction l with
  | nil => rfl
  | cons x xs ih =>
      by_cases hq : q x = true
      · by_cases hp : p x = true
        · rw [List.filter_cons_of_pos hq, List.find?_cons_of_pos _ hp,
            List.find?_cons_of_pos _ hp]
        · rw [List.filter_cons_of_pos hq,
            List.find?_cons_of_neg _ (by simp [hp]),
            List.find?_cons_of_neg _ (by simp [hp]), ih]
      · have hp : ¬ p x = true := fun h1 => hq (h x h1)
        rw [List.filter_cons_of_neg (by simpa using hq),
          List.find?_cons_of_neg _ hp, ih]

theorem lookup_addToken_same {α : Type} [DecidableEq α]
    (m : List (α × Nat)) (tok : α) (e : Nat) :
    lookupToken (addToken m tok e) tok = some e := by
  unfold lookupToken addToken
  rw [List.find?_cons_of_pos _ (by simp)]
  rfl

theorem lookup_addToken_other {α : Type} [DecidableEq α]
    (m : List (α × Nat)) (tok1 tok : α) (e1 : Nat) (h : tok1 ≠ tok) :
    lookupToken (addToken m tok1 e1) tok = lookupToken m tok := by
  unfold lookupToken addToken
  rw [List.find?_cons_of_neg _ (by simp [h]), find?_filter_of_imp]
  intro a ha
  simp only [decide_eq_true_eq] at ha
  simp [ha, Ne.symm h]

theorem lookup_cleanup {α : Type} [DecidableEq α]
    (m : List (α × Nat)) (tok : α) (e t : Nat)
    (h : lookupToken m tok = some e) (ht : ¬ e < t) :
    lookupToken (cleanupBlacklist m t) tok = some e := by
  induction m with
  | nil => simp [lookupToken] at h
  | cons p rest ih =>
      by_cases hk : p.1 = tok
      · have he : p.2 = e := by
          rw [lookupToken, List.find?_cons_of_pos _ (by simp [hk])] at h
          simpa using h
        have hcl : cleanupBlacklist (p :: rest) t = p :: cleanupBlacklist rest t := by
          rw [cleanupBlacklist, List.filter_cons_of_pos (by simp [he, ht])]
          rfl
        rw [hcl, lookupToken, List.find?_cons_of_pos _ (by simp [hk])]
        simpa using he
      · have h2 : lookupToken rest tok = some e := by
          rw [lookupToken, List.find?_cons_of_neg _ (by simp [hk])] at h
          exact h
        by_cases hkeep : p.2 < t
        · have hcl : cleanupBlacklist (p :: rest) t = cleanupBlacklist rest t := by
            rw [cleanupBlacklist, List.filter_cons_of_neg (by simp [hkeep])]
            rfl
          rw [hcl]
          exact ih h2
        · have hcl : cleanupBlacklist (p :: rest) t = p :: cleanupBlacklist rest t := by
            rw [cleanupBlacklist, List.filter_cons_of_pos (by simp [hkeep])]
            rfl
          rw [hcl, lookupToken, List.find?_cons_of_neg _ (by simp [hk])]
          exact ih h2

theorem lookup_eq_none_of_all {α : Type} [DecidableEq α]
    (m : List (α × Nat)) (tok : α) (h : ∀ p ∈ m, p.1 ≠ tok) :
    lookupToken m tok = none := by
  unfold lookupToken
  rw [List.find?_eq_none.mpr]
  · rfl
  · intro p hp
    simp [h p hp]

theorem lookup_blRun_preserved (tok : String) (e q : Nat) (post : List BlOp)
    (m : List (String × Nat))
    (hm : lookupToken m tok = some e)
    (hadd : ∀ op ∈ post, op.addsTok tok = false)
    (htime : ∀ op ∈ post, op.time ≤ q)
    (hq : q < e) :
    lookupToken (blRun m post) tok = some e := by
  induction post generalizing m with
  | nil => exact hm
  | cons op ops ih =>
      have hopadd := hadd op (by simp)
      have hoptime := htime op (by simp)
      have hadd2 : ∀ o ∈ ops, o.addsTok tok = false := by
        intro o ho; exact hadd o (by simp [ho])
      have htime2 : ∀ o ∈ ops, o.time ≤ q := by
        intro o ho; exact htime o (by simp [ho])
      have hrun : blRun m (op :: ops) = blRun (blApply m op) ops := rfl
      rw [hrun]
      cases op with
      | add tok1 e1 t =>
          have hne : tok1 ≠ tok := by
            simpa [BlOp.addsTok] using hopadd
          refine ih _ ?_ hadd2 htime2
          rw [blApply, lookup_addToken_other _ _ _ _ hne]
          exact hm
      | cleanup t =>
          refine ih _ ?_ hadd2 htime2
          rw [blApply]
          refine lookup_cleanup _ _ _ _ hm ?_
          simp only [BlOp.time] at hoptime
          omega

theorem all_keys_ne_blRun (tok : String) (ops : List BlOp)
    (m : List (String × Nat))
    (hm : ∀ p ∈ m, p.1 ≠ tok)
    (hadd : ∀ op ∈ ops, op.addsTok tok = false) :
    ∀ p ∈ blRun m ops, p.1 ≠ tok := by
  induction ops generalizing m with
  | nil => exact hm
  | cons op ops ih =>
      have hopadd := hadd op (by simp)
      have hadd2 : ∀ o ∈ ops, o.addsTok tok = false := by
        intro o ho; exact hadd o (by simp [ho])
      have hrun : blRun m (op :: ops) = blRun (blApply m op) ops := rfl
      rw [hrun]
      refine ih _ ?_ hadd2
      cases op with
      | add tok1 e1 t =>
          have hne : tok1 ≠ tok := by
            simpa [BlOp.addsTok] using hopadd
          intro p hp
          rw [blApply, addToken] at hp
          rcases List.mem_cons.mp hp with h | h
          · rw [h]; exact hne
          · exact hm p (List.mem_of_mem_filter h)
      | cleanup t =>
          intro p hp
          rw [blApply, cleanupBlacklist] at hp
          exact hm p (List.mem_of_mem_filter hp)

/-- Claim C7: once a token is revoked with expiry `e`, any later sequence of
registry operations — revocations of other tokens, sweeps, and the lazy
cleanup performed during lookups — run at times up to a query time `q`
strictly before `e` leaves the token reported as revoked at `q`; and a token
that was never revoked is reported as not revoked. -/
theorem blacklist_spec
    (m m2 : List (String × Nat)) (tok tok2 : String) (e q q2 : Nat)
    (post ops2 : List BlOp)
    (hadd : ∀ op ∈ post, op.addsTok tok = false)
    (htime : ∀ op ∈ post, op.time ≤ q)
    (hq : q < e)
    (hm2 : ∀ p ∈ m2, p.1 ≠ tok2)
    (hnever : ∀ op ∈ ops2, op.addsTok tok2 = false) :
    isBlacklisted (blRun (addToken m tok e) post) tok q = true ∧
    isBlacklisted (blRun m2 ops2) tok2 q2 = false := by
  constructor
  · have h1 : lookupToken (blRun (addToken m tok e) post) tok = some e :=
      lookup_blRun_preserved tok e q post _ (lookup_addToken_same m tok e)
        hadd htime hq
    simp [isBlacklisted, h1, hq]
  · have h2 : lookupToken (blRun m2 ops2) tok2 = none :=
      lookup_eq_none_of_all _ _ (all_keys_ne_blRun tok2 ops2 m2 hm2 hnever)
    simp [isBlacklisted, h2]

/-- Witness for C7: a concrete history with a revocation of another token and
a sweep between the revocation and the query. -/
theorem blacklist_spec_witness :
    isBlacklisted
      (blRun (addToken [] "t1" 100) [BlOp.add "t2" 50 10, BlOp.cleanup 20])
      "t1" 30 = true ∧
    isBlacklisted (blRun [] [BlOp.add "t2" 50 10, BlOp.cleanup 20])
      "t3" 30 = false :=
  blacklist_spec [] [] "t1" "t3" 100 30 30
    [BlOp.add "t2" 50 10, BlOp.cleanup 20]
    [BlOp.add "t2" 50 10, BlOp.cleanup 20]
    (by decide) (by decide) (by decide) (by decide) (by decide)

theorem find?_map_update (l : List ((String × String) × LoginAttempt))
    (key : String × String) (g : LoginAttempt → LoginAttempt) :
    (l.map (fun p => if p.1 = key then (p.1, g p.2) else p)).find?
        (fun p => p.1 == key) =
      (l.find? (fun p => p.1 == key)).map
        (fun p => if p.1 = key then (p.1, g p.2) else p) := by
  induction l with
  | nil => rfl
  | cons x xs ih =>
      by_cases hx : x.1 = key
      · rw [List.map_cons, List.find?_cons_of_pos _ (by simp [hx]),
          List.find?_cons_of_pos _ (by simp [hx])]
        rfl
      · rw [List.map_cons, List.find?_cons_of_neg _ (by simp [hx]),
          List.find?_cons_of_neg _ (by simp [hx]), ih]

theorem findAttempt_increment (st : AuthState) (username ip : String)
    (success : Bool) (now : Nat) :
    findAttempt (incrementLoginAttempts st username ip success now)
        username ip =
      some ⟨attemptCount st username ip + 1, success, now⟩ := by
  cases hfa : findAttempt st username ip with
  | none =>
      rw [incrementLoginAttempts, hfa]
      rw [attemptCount, hfa]
      simp [findAttempt, List.find?_cons_of_pos]
  | some a =>
      rw [incrementLoginAttempts, hfa]
      rw [attemptCount, hfa]
      obtain ⟨pa, hpa, hpa2⟩ :
          ∃ pa, st.attempts.find? (fun p => p.1 == (username, ip)) = some pa ∧
            pa.2 = a := by
        rw [findAttempt] at hfa
        cases hfind : st.attempts.find? (fun p => p.1 == (username, ip)) with
        | none => rw [hfind] at hfa; simp at hfa
        | some pa =>
            rw [hfind] at hfa
            exact ⟨pa, rfl, by simpa using hfa⟩
      have hkey : pa.1 = (username, ip) := by
        have := List.find?_some hpa
        simpa using this
      rw [findAttempt]
      simp only []
      rw [find?_map_update st.attempts (username, ip)
        (fun b => ⟨b.attempts + 1, success, now⟩), hpa]
      simp [hkey, hpa2]

theorem attemptCount_increment (st : AuthState) (username ip : String)
    (success : Bool) (now : Nat) :
    attemptCount (incrementLoginAttempts st username ip success now)
        username ip = attemptCount st username ip + 1 := by
  rw [attemptCount, findAttempt_increment]

theorem getLoginAttempts_increment (st : AuthState) (username ip : String)
    (success : Bool) (now : Nat) :
    getLoginAttempts (incrementLoginAttempts st username ip success now)
        username ip = .ok (attemptCount st username ip + 1, now) := by
  rw [getLoginAttempts, findAttempt_increment]

theorem getLoginAttempts_eq_count (st : AuthState) (username ip : String) :
    ∃ last, getLoginAttempts st username ip =
      .ok (attemptCount st username ip, last) := by
  rw [getLoginAttempts, attemptCount]
  cases hfa : findAttempt st username ip with
  | none => exact ⟨0, rfl⟩
  | some a => exact ⟨a.lastAttempt, rfl⟩

theorem getLoginAttempts_reset (st : AuthState) (username ip : String) :
    getLoginAttempts (resetLoginAttempts st username ip) username ip =
      .ok (0, 0) := by
  cases hfa : findAttempt st username ip with
  | none => rw [resetLoginAttempts, hfa, getLoginAttempts, hfa]
  | some a =>
      rw [resetLoginAttempts, hfa]
      obtain ⟨pa, hpa, hpa2⟩ :
          ∃ pa, st.attempts.find? (fun p => p.1 == (username, ip)) = some pa ∧
            pa.2 = a := by
        rw [findAttempt] at hfa
        cases hfind : st.attempts.find? (fun p => p.1 == (username, ip)) with
        | none => rw [hfind] at hfa; simp at hfa
        | some pa =>
            rw [hfind] at hfa
            exact ⟨pa, rfl, by simpa using hfa⟩
      have hkey : pa.1 = (username, ip) := by
        have := List.find?_some hpa
        simpa using this
      rw [getLoginAttempts, findAttempt]
      simp only []
      rw [find?_map_update st.attempts (username, ip) (fun _ => ⟨0, false, 0⟩),
        hpa]
      simp [hkey]

theorem users_increment (st : AuthState) (username ip : String)
    (success : Bool) (now : Nat) :
    (incrementLoginAttempts st username ip success now).users = st.users := by
  rw [incrementLoginAttempts]
  cases findAttempt st username ip <;> rfl

theorem users_reset (st : AuthState) (username ip : String) :
    (resetLoginAttempts st username ip).users = st.users := by
  rw [resetLoginAttempts]
  cases findAttempt st username ip <;> rfl

theorem lockUser_locks (st : AuthState) (userID : Nat) (reason : String)
    (duration : Int) (now : Nat) :
    ∀ u ∈ (lockUser st userID reason duration now).users, u.id = userID →
      u.status = .locked ∧ u.lockReason = reason ∧
        u.lockedUntil = ((now : Int) + duration).toNat := by
  intro u hu hid
  rw [lockUser] at hu
  simp only [List.mem_map] at hu
  obtain ⟨v, hv, hfv⟩ := hu
  by_cases hvid : v.id = userID
  · rw [if_pos hvid] at hfv
    rw [← hfv]
    exact ⟨rfl, rfl, rfl⟩
  · rw [if_neg hvid] at hfv
    rw [← hfv] at hid
    exact absurd hid hvid

theorem wrapInt64_eq_self (n : Int) (h0 : 0 ≤ n) (h1 : n < 2 ^ 63) :
    wrapInt64 n = n := by
  have hmod : n % (2 ^ 64 : Int) = n :=
    Int.emod_eq_of_lt h0 (by
      have : (2 ^ 63 : Int) < 2 ^ 64 := by norm_num
      omega)
  simp only [wrapInt64, hmod]
  rw [if_pos h1]

/-- Within the range where the int64 product does not overflow — attempts up
to 34 — the exponential lockout delay is positive. -/
theorem calculateLockDelay_pos (attempts jitter : Nat) (h1 : 1 ≤ attempts)
    (h2 : attempts ≤ 34) (hj : jitter < 1000) :
    0 < calculateLockDelay attempts jitter := by
  have hpow0 : (0 : Int) < 2 ^ (attempts - 1) := pow_pos (by norm_num) _
  have hpow : (2 : Int) ^ (attempts - 1) ≤ 2 ^ 33 := by
    apply pow_le_pow_right₀ (by norm_num)
    omega
  have hj1 : (0 : Int) ≤ (jitter : Int) * 1000000 := by positivity
  have hj2 : (jitter : Int) * 1000000 < 1000000000 := by
    have hc : (jitter : Int) < 1000 := by exact_mod_cast hj
    nlinarith
  have hv0 : (0 : Int) ≤ 1000000000 * 2 ^ (attempts - 1) := by positivity
  have hle : (1000000000 : Int) * 2 ^ (attempts - 1) ≤ 8589934592000000000 := by
    have hm := mul_le_mul_of_nonneg_left hpow
      (show (0 : Int) ≤ 1000000000 by norm_num)
    have he : (1000000000 : Int) * 2 ^ 33 = 8589934592000000000 := by norm_num
    omega
  have hfit : (8589934592000000000 : Int) + 1000000000 < 2 ^ 63 := by
    norm_num
  have hbase : (1000000000 : Int) ≤ 1000000000 * 2 ^ (attempts - 1) := by
    nlinarith
  simp only [calculateLockDelay]
  rw [if_neg (by omega : ¬ attempts = 0)]
  rw [wrapInt64_eq_self _ hv0 (by omega)]
  rw [wrapInt64_eq_self _ (by omega) (by omega)]
  split_ifs <;> omega

theorem validateUserAuthentication_mismatch
    (st : AuthState) (username password ip : String) (now jitter : Nat)
    (user : User)
    (hfind : findUserByUsername st.users username = .ok user)
    (hstatus : checkUserStatus user now = none)
    (hpw : user.checkPasswordHash password = false) :
    validateUserAuthentication st username password ip now jitter =
      (.error .invalidCredentials,
        recordFailedLoginAttempt st username ip now) := by
  rw [validateUserAuthentication, hfind]
  simp only []
  rw [hstatus]
  simp only []
  rw [hpw]
  rfl

theorem validateUserAuthentication_match_locked
    (st : AuthState) (username password ip : String) (now jitter : Nat)
    (user : User) (count last : Nat)
    (hfind : findUserByUsername st.users username = .ok user)
    (hstatus : checkUserStatus user now = none)
    (hpw : user.checkPasswordHash password = true)
    (hcount : getLoginAttempts st username ip = .ok (count, last))
    (hge : MAX_LOGIN_ATTEMPTS ≤ count) :
    validateUserAuthentication st username password ip now jitter =
      (.error .tooManyAttempts,
        lockUser st user.id "Exceeded maximum login attempts"
          (calculateLockDelay count jitter) now) := by
  rw [validateUserAuthentication, hfind]
  simp only []
  rw [hstatus]
  simp only []
  rw [hpw]
  simp only [Bool.not_true, Bool.false_eq_true, if_false]
  rw [checkLoginAttempts, hcount]
  simp only []
  rw [if_pos hge]

theorem validateUserAuthentication_notFound
    (st : AuthState) (username password ip : String) (now jitter : Nat)
    (hfind : findUserByUsername st.users username = .error .userNotFound) :
    validateUserAuthentication st username password ip now jitter =
      (.error .userNotFound, st) := by
  rw [validateUserAuthentication, hfind]

theorem attemptCount_of_getLoginAttempts (st : AuthState)
    (username ip : String) (count last : Nat)
    (h : getLoginAttempts st username ip = .ok (count, last)) :
    attemptCount st username ip = count := by
  rw [getLoginAttempts] at h
  rw [attemptCount]
  cases hfa : findAttempt st username ip with
  | none =>
      rw [hfa] at h
      simp only [Except.ok.injEq, Prod.mk.injEq] at h
      simpa using h.1
  | some a =>
      rw [hfa] at h
      simp only [Except.ok.injEq, Prod.mk.injEq] at h
      simpa using h.1

/-- Counterexample for C1: alice submits the wrong password five times from
origin "1.2.3.4" (times 1 to 5); the 5th login call still returns the
invalid-credentials error, not the account-locked error, and the persisted
record of alice is unchanged — status active, no locked_until. -/
theorem login_fifth_wrong_password_counterexample :
    (wrongLogin (afterWrong 4) 5).1 = .error .invalidCredentials ∧
    findUserByUsername (wrongLogin (afterWrong 4) 5).2.users "alice" =
      .ok alice ∧
    alice.status = .active ∧ alice.lockedUntil = 0 :=
  ⟨rfl, rfl, rfl, rfl⟩

/-- Claim C1, amended: on a password mismatch the orchestrator records a
failed attempt (the stored count rises by one) and returns the
invalid-credentials error without invoking the lockout decision — no account
status changes; the lockout decision runs only on the password-match path:
with a stored count of 5 or more a subsequent correct-password login aborts
with the account-locked error and persists status locked with
locked_until = now + the computed delay — a future time for counts up to 34,
but not in general, because the int64 duration product wraps negative from
count 35 on (count 35 with zero jitter gives about minus 40 years, so the
persisted locked_until lies in the past). -/
theorem login_wrong_password_flow
    (st : AuthState) (username password ip : String) (now jitter : Nat)
    (user : User) (count last : Nat)
    (hfind : findUserByUsername st.users username = .ok user)
    (hstatus : checkUserStatus user now = none)
    (hcount : getLoginAttempts st username ip = .ok (count, last)) :
    (user.checkPasswordHash password = false →
      (validateUserAuthentication st username password ip now jitter).1 =
        .error .invalidCredentials ∧
      getLoginAttempts
          (validateUserAuthentication st username password ip now jitter).2
          username ip = .ok (count + 1, now) ∧
      (validateUserAuthentication st username password ip now jitter).2.users =
        st.users) ∧
    (user.checkPasswordHash password = true → MAX_LOGIN_ATTEMPTS ≤ count →
      (validateUserAuthentication st username password ip now jitter).1 =
        .error .tooManyAttempts ∧
      ∀ u ∈ (validateUserAuthentication st username password ip now
          jitter).2.users,
        u.id = user.id →
          u.status = .locked ∧
          u.lockReason = "Exceeded maximum login attempts" ∧
          (count ≤ 63 →
            u.lockedUntil =
              ((now : Int) + calculateLockDelay count jitter).toNat) ∧
          (count ≤ 34 → jitter < 1000 → now < u.lockedUntil) ∧
          (count ≤ 63 → calculateLockDelay count jitter ≤ 0 →
            u.lockedUntil ≤ now)) ∧
    calculateLockDelay 35 0 < 0 := by
  have hc := attemptCount_of_getLoginAttempts st username ip count last hcount
  refine ⟨?_, ?_, by decide⟩
  · intro hpw
    have hrun := validateUserAuthentication_mismatch st username password ip
      now jitter user hfind hstatus hpw
    rw [hrun]
    refine ⟨rfl, ?_, ?_⟩
    · rw [recordFailedLoginAttempt, getLoginAttempts_increment, hc]
    · rw [recordFailedLoginAttempt, users_increment]
  · intro hpw hge
    have h5 : (5 : Nat) ≤ count := hge
    have hrun := validateUserAuthentication_match_locked st username password
      ip now jitter user count last hfind hstatus hpw hcount hge
    rw [hrun]
    refine ⟨rfl, ?_⟩
    intro u hu hid
    obtain ⟨h1, h2, h3⟩ := lockUser_locks st user.id
      "Exceeded maximum login attempts" (calculateLockDelay count jitter) now
      u hu hid
    refine ⟨h1, h2, fun _ => h3, ?_, ?_⟩
    · intro h34 hjlt
      have hpos := calculateLockDelay_pos count jitter (by omega) h34 hjlt
      rw [h3]
      omega
    · intro _ hneg
      rw [h3]
      omega

/-- Witness for C1 (amended): the mismatch path at the fresh state, the
lock-on-match path at a state with five recorded failures (count 5, delay
positive, lock in the future), and the negative wrapped delay at count 35. -/
theorem login_wrong_password_flow_witness :
    ((validateUserAuthentication st0 "alice" "wrong-pw" "1.2.3.4" 7 0).1 =
        .error .invalidCredentials ∧
      getLoginAttempts
          (validateUserAuthentication st0 "alice" "wrong-pw" "1.2.3.4" 7 0).2
          "alice" "1.2.3.4" = .ok (1, 7) ∧
      (validateUserAuthentication st0 "alice" "wrong-pw" "1.2.3.4"
          7 0).2.users = st0.users) ∧
    ((validateUserAuthentication stA "alice" "correct-horse" "1.2.3.4" 9
        0).1 = .error .tooManyAttempts ∧
      ∀ u ∈ (validateUserAuthentication stA "alice" "correct-horse" "1.2.3.4"
          9 0).2.users,
        u.id = 1 → u.status = .locked ∧ 9 < u.lockedUntil) ∧
    calculateLockDelay 35 0 < 0 := by
  have h0 := login_wrong_password_flow st0 "alice" "wrong-pw" "1.2.3.4" 7 0
    alice 0 0 rfl rfl rfl
  have hA := login_wrong_password_flow stA "alice" "correct-horse" "1.2.3.4"
    9 0 alice 5 5 rfl rfl rfl
  refine ⟨h0.1 rfl, ?_, hA.2.2⟩
  have hlock := hA.2.1 rfl (by decide)
  refine ⟨hlock.1, ?_⟩
  intro u hu hid
  obtain ⟨hst, _, _, hfut, _⟩ := hlock.2 u hu hid
  exact ⟨hst, hfut (by decide) (by decide)⟩

/-- Counterexample for C4: a login with an unknown username and a login with
an existing account but wrong password return different error values, so the
caller can distinguish whether the account exists. -/
theorem login_enumeration_counterexample :
    (validateUserAuthentication st0 "bob" "whatever" "1.2.3.4" 3 0).1 =
      .error .userNotFound ∧
    (validateUserAuthentication st0 "alice" "wrong-pw" "1.2.3.4" 3 0).1 =
      .error .invalidCredentials ∧
    AuthError.userNotFound ≠ AuthError.invalidCredentials :=
  ⟨rfl, rfl, by decide⟩

/-- Claim C4, amended: the login flow does not normalize the two
credential-rejection cases: an unknown username is reported with the
user-not-found error and a wrong password with the invalid-credentials error,
two distinct values, so the error output distinguishes account existence. -/
theorem login_rejections_differ
    (st : AuthState) (username1 password1 ip1 username2 password2 ip2 : String)
    (now1 jitter1 now2 jitter2 : Nat) (user : User)
    (h1 : findUserByUsername st.users username1 = .error .userNotFound)
    (hfind : findUserByUsername st.users username2 = .ok user)
    (hstatus : checkUserStatus user now2 = none)
    (hpw : user.checkPasswordHash password2 = false) :
    (validateUserAuthentication st username1 password1 ip1 now1 jitter1).1 =
      .error .userNotFound ∧
    (validateUserAuthentication st username2 password2 ip2 now2 jitter2).1 =
      .error .invalidCredentials ∧
    (validateUserAuthentication st username1 password1 ip1 now1 jitter1).1 ≠
      (validateUserAuthentication st username2 password2 ip2 now2 jitter2).1
    := by
  have e1 := validateUserAuthentication_notFound st username1 password1 ip1
    now1 jitter1 h1
  have e2 := validateUserAuthentication_mismatch st username2 password2 ip2
    now2 jitter2 user hfind hstatus hpw
  rw [e1, e2]
  exact ⟨rfl, rfl, by simp⟩

/-- Witness for C4 (amended) at the concrete initial state. -/
theorem login_rejections_differ_witness :
    (validateUserAuthentication st0 "bob" "pw1" "1.2.3.4" 3 0).1 =
      .error .userNotFound ∧
    (validateUserAuthentication st0 "alice" "wrong-pw" "5.6.7.8" 4 0).1 =
      .error .invalidCredentials ∧
    (validateUserAuthentication st0 "bob" "pw1" "1.2.3.4" 3 0).1 ≠
      (validateUserAuthentication st0 "alice" "wrong-pw" "5.6.7.8" 4 0).1 :=
  login_rejections_differ st0 "bob" "pw1" "1.2.3.4" "alice" "wrong-pw"
    "5.6.7.8" 3 0 4 0 alice rfl rfl rfl rfl

/-- Counterexample for C9: the lock reason the decision persists is the
string "Exceeded maximum login attempts", not the literal that the claim quotes:
"exceeded maximum attempts". -/
theorem lockout_reason_counterexample :
    ((checkLoginAttempts stA "alice" 1 "1.2.3.4" 9 0).2.users.find?
        (fun u => u.id == 1)).map User.lockReason =
      some "Exceeded maximum login attempts" ∧
    "Exceeded maximum login attempts" ≠ "exceeded maximum attempts" :=
  ⟨rfl, by decide⟩

/-- Claim C9, amended: after five consecutive failed `RecordAttempt` calls the
stored count is at least 5; the lockout decision on a count of at least 5
locks the account with reason "Exceeded maximum login attempts" and returns
the account-locked error; on a smaller count it returns nil and leaves the
state unchanged; and a `Reset` makes `GetAttempts` return 0. -/
theorem lockout_decision_spec
    (st : AuthState) (username ip : String) (userID : Nat) (now jitter : Nat)
    (count last : Nat)
    (hcount : getLoginAttempts st username ip = .ok (count, last)) :
    MAX_LOGIN_ATTEMPTS ≤
      attemptCount (recordFails st username ip 5) username ip ∧
    (MAX_LOGIN_ATTEMPTS ≤ count →
      (checkLoginAttempts st username userID ip now jitter).1 =
        some .tooManyAttempts ∧
      ∀ u ∈ (checkLoginAttempts st username userID ip now jitter).2.users,
        u.id = userID → u.status = .locked ∧
          u.lockReason = "Exceeded maximum login attempts") ∧
    (count < MAX_LOGIN_ATTEMPTS →
      checkLoginAttempts st username userID ip now jitter = (none, st)) ∧
    getLoginAttempts (resetLoginAttempts st username ip) username ip =
      .ok (0, 0) := by
  refine ⟨?_, ?_, ?_, getLoginAttempts_reset st username ip⟩
  · have h5 : ∀ n, attemptCount (recordFails st username ip n) username ip =
        attemptCount st username ip + n := by
      intro n
      induction n with
      | zero => rfl
      | succ k ih =>
          simp only [recordFails, attemptCount_increment, ih]
          omega
    rw [h5, MAX_LOGIN_ATTEMPTS]
    omega
  · intro hge
    have hrun : checkLoginAttempts st username userID ip now jitter =
        (some .tooManyAttempts,
          lockUser st userID "Exceeded maximum login attempts"
            (calculateLockDelay count jitter) now) := by
      rw [checkLoginAttempts, hcount]
      simp only []
      rw [if_pos hge]
    rw [hrun]
    refine ⟨rfl, ?_⟩
    intro u hu hid
    obtain ⟨a, b, _⟩ := lockUser_locks st userID
      "Exceeded maximum login attempts" (calculateLockDelay count jitter) now
      u hu hid
    exact ⟨a, b⟩
  · intro hlt
    rw [checkLoginAttempts, hcount]
    simp only []
    rw [if_neg (by omega)]

/-- Witness for C9 (amended) at the state with five recorded failures. -/
theorem lockout_decision_spec_witness :
    MAX_LOGIN_ATTEMPTS ≤ attemptCount (recordFails stA "alice" "1.2.3.4" 5)
      "alice" "1.2.3.4" ∧
    (checkLoginAttempts stA "alice" 1 "1.2.3.4" 9 0).1 =
      some .tooManyAttempts ∧
    getLoginAttempts (resetLoginAttempts stA "alice" "1.2.3.4") "alice"
      "1.2.3.4" = .ok (0, 0) := by
  have h := lockout_decision_spec stA "alice" "1.2.3.4" 1 9 0 5 5 rfl
  exact ⟨h.1, (h.2.1 (by decide)).1, h.2.2.2⟩

/-- Counterexample for C5: an expired well-formed token and a malformed token
produce the same single parse error — there is no distinct token-expired
error, so the claimed four pairwise-distinct failure modes do not exist. -/
theorem validateToken_expired_eq_malformed :
    validateToken tm0 expiredTok "access" 10 =
      .error ⟨.parseError, "Token parsing error"⟩ ∧
    validateToken tm0 malformedTok "access" 10 =
      .error ⟨.parseError, "Token parsing error"⟩ ∧
    validateToken tm0 expiredTok "access" 10 =
      validateToken tm0 malformedTok "access" 10 :=
  ⟨rfl, rfl, rfl⟩

/-- Claim C5, amended: validation checks revocation before any parse work and
fails with the blacklisted error even for malformed or expired tokens; an
unrevoked token that fails the parse — malformed, badly signed, or expired
alike — yields the one generic parse error; an unrevoked token that parses
but has the wrong kind yields the invalid-type error; otherwise the claims
are returned. -/
theorem validateToken_precedence
    (tm : TokenManagerImpl) (tok : SignedToken) (expectedTokenType : String)
    (now : Nat) (secretKey : String)
    (hkey : (if expectedTokenType = "access" then some tm.secretKey
             else if expectedTokenType = "refresh" then some tm.refreshSecretKey
             else none) = some secretKey) :
    (isBlacklisted tm.blacklist tok now = true →
      validateToken tm tok expectedTokenType now =
        .error ⟨.tokenBlacklisted, "Token is blacklisted"⟩) ∧
    (isBlacklisted tm.blacklist tok now = false →
      ∀ e, jwtParseWithClaims tok secretKey now = .error e →
        validateToken tm tok expectedTokenType now =
          .error ⟨.parseError, "Token parsing error"⟩) ∧
    (isBlacklisted tm.blacklist tok now = false →
      ∀ claims, jwtParseWithClaims tok secretKey now = .ok claims →
        claims.tokenType ≠ expectedTokenType →
        validateToken tm tok expectedTokenType now =
          .error ⟨.tokenInvalidType,
            "Token type does not match expected type"⟩) ∧
    (isBlacklisted tm.blacklist tok now = false →
      ∀ claims, jwtParseWithClaims tok secretKey now = .ok claims →
        claims.tokenType = expectedTokenType →
        validateToken tm tok expectedTokenType now = .ok claims) := by
  refine ⟨?_, ?_, ?_, ?_⟩
  · intro hbl
    rw [validateToken, if_pos hbl]
  · intro hbl e hparse
    rw [validateToken, if_neg (by simp [hbl])]
    simp only [hkey]
    rw [hparse]
  · intro hbl claims hparse hkind
    rw [validateToken, if_neg (by simp [hbl])]
    simp only [hkey]
    rw [hparse]
    simp [hkind]
  · intro hbl claims hparse hkind
    rw [validateToken, if_neg (by simp [hbl])]
    simp only [hkey]
    rw [hparse]
    simp [hkind]

/-- Witness for C5 (amended): a revoked-and-expired token is reported
blacklisted; an unrevoked expired token is reported with the parse error; a
valid token of the wrong kind with the invalid-type error. -/
theorem validateToken_precedence_witness :
    validateToken ⟨"access-secret", "refresh-secret", [(expiredTok, 50)]⟩
      expiredTok "access" 10 =
      .error ⟨.tokenBlacklisted, "Token is blacklisted"⟩ ∧
    validateToken tm0 expiredTok "access" 10 =
      .error ⟨.parseError, "Token parsing error"⟩ ∧
    validateToken tm0 accessTok "refresh" 200 =
      .error ⟨.parseError, "Token parsing error"⟩ := by
  refine ⟨?_, ?_, ?_⟩
  · exact (validateToken_precedence
      ⟨"access-secret", "refresh-secret", [(expiredTok, 50)]⟩ expiredTok
      "access" 10 "access-secret" rfl).1 rfl
  · exact ((validateToken_precedence tm0 expiredTok "access" 10
      "access-secret" rfl).2.1 rfl) .expired rfl
  · exact ((validateToken_precedence tm0 accessTok "refresh" 200
      "refresh-secret" rfl).2.1 rfl) .signatureInvalid rfl

/-- Counterexample for C6: validating a freshly issued access token with
expected kind refresh fails with the parse error (the signature check with
the refresh secret fails first), not with the invalid-type ("wrong kind")
error. -/
theorem access_as_refresh_counterexample :
    generateToken tm0 1 "alice" "access" 100 "jti-1" = .ok accessTok ∧
    validateToken tm0 accessTok "refresh" 200 =
      .error ⟨.parseError, "Token parsing error"⟩ ∧
    ErrorCode.parseError ≠ ErrorCode.tokenInvalidType :=
  ⟨rfl, rfl, by decide⟩

/-- Claim C6, amended: issuing an access token and validating it as an access
token returns claims with the issued subject id and username; validating that
same token as a refresh token is rejected — with the generic parse error
produced by the failing signature check under the distinct refresh secret,
not a dedicated wrong-kind error. -/
theorem token_roundtrip_spec
    (tm : TokenManagerImpl) (userID : Nat) (username : String)
    (now now2 : Nat) (jti : String) (tok : SignedToken)
    (hgen : generateToken tm userID username "access" now jti = .ok tok)
    (hbl : isBlacklisted tm.blacklist tok now2 = false)
    (hexp : now2 < now + 15 * 60000)
    (hsec : tm.refreshSecretKey ≠ tm.secretKey) :
    (∃ claims, validateToken tm tok "access" now2 = .ok claims ∧
      claims.userID = userID ∧ claims.username = username) ∧
    validateToken tm tok "refresh" now2 =
      .error ⟨.parseError, "Token parsing error"⟩ := by
  have htok : tok = .signed ⟨userID, username, "access", jti, now + 15 * 60000⟩
      tm.secretKey := by
    have hg : generateToken tm userID username "access" now jti =
        .ok (.signed ⟨userID, username, "access", jti, now + 15 * 60000⟩
          tm.secretKey) := by
      rw [generateToken]
      simp
    rw [hg] at hgen
    simpa using hgen.symm
  subst htok
  have h2 : tm.secretKey ≠ tm.refreshSecretKey := Ne.symm hsec
  constructor
  · refine ⟨⟨userID, username, "access", jti, now + 15 * 60000⟩, ?_, rfl, rfl⟩
    have hno : ¬ ((Claims.mk userID username "access" jti
        (now + 15 * 60000)).expiresAt ≤ now2) := by
      simp only []
      omega
    rw [validateToken]
    simp [hbl, jwtParseWithClaims, hno]
  · rw [validateToken]
    simp [hbl, jwtParseWithClaims, h2]

/-- Witness for C6 (amended) at the concrete token manager. -/
theorem token_roundtrip_spec_witness :
    (∃ claims, validateToken tm0 accessTok "access" 200 = .ok claims ∧
      claims.userID = 1 ∧ claims.username = "alice") ∧
    validateToken tm0 accessTok "refresh" 200 =
      .error ⟨.parseError, "Token parsing error"⟩ :=
  token_roundtrip_spec tm0 1 "alice" 100 200 "jti-1" accessTok rfl rfl
    (by decide) (by decide)

theorem takeAvailable_in_window (cap interval start a t : Nat)
    (h1 : start ≤ t) (h2 : t < start + interval) (ha : a ≤ cap) :
    Bucket.takeAvailable ⟨cap, interval, start, a⟩ t =
      if 1 ≤ a then (1, ⟨cap, interval, start, a - 1⟩)
      else (0, ⟨cap, interval, start, a⟩) := by
  have hticks : (t - start) / interval = 0 := Nat.div_eq_of_lt (by omega)
  rw [Bucket.takeAvailable, Bucket.adjust]
  simp only [hticks, Nat.add_zero, Nat.zero_mul, Nat.min_eq_right ha]

theorem takeAll_window (cap interval start : Nat) (ts : List Nat) (a : Nat)
    (ha : a ≤ cap) (hlen : ts.length ≤ a)
    (hts : ∀ t ∈ ts, start ≤ t ∧ t < start + interval) :
    takeAll ⟨cap, interval, start, a⟩ ts =
      (ts.map (fun _ => 1), ⟨cap, interval, start, a - ts.length⟩) := by
  induction ts generalizing a with
  | nil => simp [takeAll]
  | cons t ts ih =>
      obtain ⟨h1, h2⟩ := hts t (by simp)
      have h1a : 1 ≤ a := by
        have := hlen
        simp only [List.length_cons] at this
        omega
      rw [takeAll]
      simp only [takeAvailable_in_window cap interval start a t h1 h2 ha,
        if_pos h1a]
      rw [ih (a - 1) (by omega)
        (by simp only [List.length_cons] at hlen; omega)
        (fun t2 ht2 => hts t2 (by simp [ht2]))]
      have harith : a - 1 - ts.length = a - (ts.length + 1) := by omega
      simp [List.map_cons, List.length_cons, harith]

theorem takeAvailable_empty_fails (cap interval start t : Nat)
    (h1 : start ≤ t) (h2 : t < start + interval) :
    (Bucket.takeAvailable ⟨cap, interval, start, 0⟩ t).1 = 0 := by
  rw [takeAvailable_in_window cap interval start 0 t h1 h2 (by omega)]
  simp

theorem takeAvailable_after_refill (cap interval start t : Nat)
    (hcap : 1 ≤ cap) (ht : start + interval ≤ t) (hint : 1 ≤ interval) :
    (Bucket.takeAvailable ⟨cap, interval, start, 0⟩ t).1 = 1 := by
  have hticks : 1 ≤ (t - start) / interval := by
    rw [Nat.le_div_iff_mul_le (by omega)]
    omega
  have havail : 1 ≤ min cap (0 + (t - start) / interval) :=
    le_min hcap (by omega)
  rw [Bucket.takeAvailable, Bucket.adjust]
  simp only [if_pos havail]

theorem map_one_eq_replicate (ts : List Nat) :
    ts.map (fun _ => (1 : Nat)) = List.replicate ts.length 1 := by
  induction ts with
  | nil => rfl
  | cons t ts ih => simp [List.replicate, ih]

/-- Claim C8: the first request from an unseen client key creates a fresh bucket
with the configured capacity and refill duration; that bucket allows exactly
`capacity` takes within one refill window (all succeed, leaving zero
credits), denies the next take in the same window, and grants at least one
take again once a full refill duration has elapsed since the bucket was
emptied. -/
theorem rateLimiter_spec
    (l : IPRateLimiter) (ip : String) (now : Nat) (ts : List Nat)
    (tfail trefill : Nat)
    (hnew : l.limiters.find? (fun p => p.1 == ip) = none)
    (hcap : 1 ≤ l.globalBurst) (hint : 1 ≤ l.duration)
    (hts : ∀ t ∈ ts, now ≤ t ∧ t < now + l.duration)
    (hlen : ts.length = l.globalBurst)
    (hfail1 : now ≤ tfail) (hfail2 : tfail < now + l.duration)
    (hrefill : now + l.duration ≤ trefill) :
    (getIPLimiter l ip now).1 = newBucket now l.duration l.globalBurst ∧
    (takeAll (getIPLimiter l ip now).1 ts).1 =
      List.replicate l.globalBurst 1 ∧
    (((takeAll (getIPLimiter l ip now).1 ts).2).takeAvailable tfail).1 = 0 ∧
    (((takeAll (getIPLimiter l ip now).1 ts).2).takeAvailable trefill).1 = 1
    := by
  have hbucket : (getIPLimiter l ip now).1 =
      newBucket now l.duration l.globalBurst := by
    rw [getIPLimiter, hnew]
    rfl
  have hrun : takeAll (getIPLimiter l ip now).1 ts =
      (ts.map (fun _ => 1),
        ⟨l.globalBurst, l.duration, now, l.globalBurst - ts.length⟩) := by
    rw [hbucket, newBucket]
    exact takeAll_window l.globalBurst l.duration now ts l.globalBurst
      (le_refl _) (by omega) hts
  have hempty : l.globalBurst - ts.length = 0 := by omega
  refine ⟨hbucket, ?_, ?_, ?_⟩
  · rw [hrun]
    simp only [map_one_eq_replicate, hlen]
  · rw [hrun]
    simp only [hempty]
    exact takeAvailable_empty_fails l.globalBurst l.duration now tfail hfail1
      hfail2
  · rw [hrun]
    simp only [hempty]
    exact takeAvailable_after_refill l.globalBurst l.duration now trefill hcap
      hrefill hint

/-- Witness for C8: burst 2, refill duration 10, two takes at times 100 and
105, a denied take at 107, a granted take at 111. -/
theorem rateLimiter_spec_witness :
    (getIPLimiter l0 "9.9.9.9" 100).1 = newBucket 100 10 2 ∧
    (takeAll (getIPLimiter l0 "9.9.9.9" 100).1 [100, 105]).1 =
      List.replicate 2 1 ∧
    (((takeAll (getIPLimiter l0 "9.9.9.9" 100).1 [100, 105]).2).takeAvailable
      107).1 = 0 ∧
    (((takeAll (getIPLimiter l0 "9.9.9.9" 100).1 [100, 105]).2).takeAvailable
      111).1 = 1 :=
  rateLimiter_spec l0 "9.9.9.9" 100 [100, 105] 107 111 rfl (by decide)
    (by decide) (by decide) (by decide) (by decide) (by decide) (by decide)

/-- Witness for C2 at attempt count 3 with concrete jitters. -/
theorem CalculateLockDelay_spec_witness :
    (1 : Nat) ≤ 3 ∧ 300 < stepTable 3 / 10 ∧ 700 < stepTable 4 / 10 ∧
    (CalculateLockDelay 3 300 ≤ CalculateLockDelay 4 700 ∧
      (10 ≤ 3 → CalculateLockDelay 3 300 = 3600000) ∧
      stepTable 3 ≤ CalculateLockDelay 3 300 ∧
      CalculateLockDelay 3 300 ≤ stepTable 3 * 11 / 10) :=
  ⟨by decide, by decide, by decide,
    CalculateLockDelay_spec 3 300 700 (by decide) (by decide) (by decide)⟩

end UserMgmt
